import Mathlib

/-!
Verification of the active-period resolution core of the cms_app client.

The embedding models the date-interval resolution logic that the app
duplicates across its dashboard, services-list and service-details screens:

* `getCurrentServiceDates` (src/screens/Dashboard.jsx and
  src/screens/ServicesList.jsx): an async helper that lazily caches the
  fetched timeline history per service id, sorts it in place by end date
  descending, and derives the currently effective (start, end) window.
* `getCurrentActiveServicePeriod` and `calculateServiceStatus`
  (src/screens/ServiceDetails.jsx): the detail screen's variant of the
  resolver plus the status classifier.
* The day-count displays of `renderService` (ServicesList.jsx) and
  `ServiceCard` (Dashboard.jsx).

JavaScript dates are modelled as `Option Int` millisecond timestamps
(`none` standing for an Invalid Date / NaN timestamp); every relational
operator on dates returns `false` when either side is NaN, exactly as in
JS.  Raw JSON date fields are modelled by `DateValue`, capturing the
values actually distinguished by the code: `undefined` (absent field),
`null`, a parseable date string, and a truthy unparseable string.
-/

/-- Value of a `start_date` / `end_date` field as it arrives in JSON.
`dateStr t` is a string that `new Date` parses to timestamp `t`;
`invalidStr` is a truthy string that parses to an Invalid Date. -/
inductive DateValue where
  | undef
  | nullv
  | dateStr (t : Int)
  | invalidStr
deriving DecidableEq, Repr

/-- JavaScript truthiness of a date field (`undefined` and `null` are
falsy; any non-empty string is truthy). -/
def DateValue.truthy : DateValue → Bool
  | .undef => false
  | .nullv => false
  | .dateStr _ => true
  | .invalidStr => true

/-- `new Date(v).getTime()` : `new Date(undefined)` is Invalid Date,
`new Date(null)` is the epoch (timestamp 0), a parseable string gives its
timestamp, an unparseable string gives Invalid Date (NaN). -/
def newDate : DateValue → Option Int
  | .undef => none
  | .nullv => some 0
  | .dateStr t => some t
  | .invalidStr => none

/-- JS `a >= b` on dates: false whenever either timestamp is NaN. -/
def jsGe : Option Int → Option Int → Bool
  | some a, some b => decide (b ≤ a)
  | _, _ => false

/-- JS `a <= b` on dates: false whenever either timestamp is NaN. -/
def jsLe : Option Int → Option Int → Bool
  | some a, some b => decide (a ≤ b)
  | _, _ => false

/-- JS `a < b` on dates: false whenever either timestamp is NaN. -/
def jsLt : Option Int → Option Int → Bool
  | some a, some b => decide (a < b)
  | _, _ => false

/-- One record of the `timeline` array of a `/service-history/:id`
response: `{ id, timeline_type, start_date, end_date }`. -/
structure TimelineEvent where
  start_date : DateValue
  end_date : DateValue
  timeline_type : Option String := none
deriving DecidableEq, Repr

/-- One record of the `maintenance` array of a `/service-history/:id`
response: `{ id, months_added, amount_paid, start_date, end_date }`. -/
structure MaintenanceEvent where
  months_added : Int
  amount_paid : Int
  start_date : DateValue
  end_date : DateValue
deriving DecidableEq, Repr

/-- The payload of a `/service-history/:id` response
(`res.data?.data`): the code reads `…?.timeline || []`, so both arrays
are optional. -/
structure HistoryResponse where
  timeline : Option (List TimelineEvent)
  maintenance : Option (List MaintenanceEvent)
deriving DecidableEq, Repr

/-- Outcome of the `api.get` call for a service's history: either a
response payload or a thrown fetch error (network failure, timeout,
non-2xx). -/
inductive FetchOutcome where
  | ok (resp : HistoryResponse)
  | err
deriving DecidableEq, Repr

/-- Dashboard/ServicesList predicate for the currently active timeline
event: `timeline.start_date && timeline.end_date` must be truthy and
`today >= start && today <= end` (inclusive on both ends). -/
def isActiveEvent (today : Int) (e : TimelineEvent) : Bool :=
  if e.start_date.truthy && e.end_date.truthy then
    jsGe (some today) (newDate e.start_date) && jsLe (some today) (newDate e.end_date)
  else
    false

/-- Dashboard/ServicesList predicate for a completed timeline event:
`end_date` truthy and `new Date(end_date) < today`. -/
def isCompletedEvent (today : Int) (e : TimelineEvent) : Bool :=
  if !e.end_date.truthy then false
  else jsLt (newDate e.end_date) (some today)

/-- The Dashboard/ServicesList sort comparator
`(a, b) => new Date(b.end_date) - new Date(a.end_date)` produces a
negative number for `(x, y)` exactly when `x`'s end parses to a larger
timestamp than `y`'s; a NaN on either side makes the comparator return
NaN, which the sort treats as "equal". -/
def jsLtCmp (x y : TimelineEvent) : Bool :=
  match newDate x.end_date, newDate y.end_date with
  | some a, some b => decide (b < a)
  | _, _ => false

/-- Insert an element into a list sorted by the strict comparator `lt`,
keeping it before every element it does not strictly follow (this makes
the overall sort stable). -/
def insertSorted (lt : TimelineEvent → TimelineEvent → Bool)
    (x : TimelineEvent) : List TimelineEvent → List TimelineEvent
  | [] => [x]
  | y :: ys => if lt y x then y :: insertSorted lt x ys else x :: y :: ys

/-- Stable sort by the strict comparator `lt` (models
`Array.prototype.sort`, which is stable). -/
def stableSortBy (lt : TimelineEvent → TimelineEvent → Bool) :
    List TimelineEvent → List TimelineEvent
  | [] => []
  | x :: xs => insertSorted lt x (stableSortBy lt xs)

/-- The record returned by `getCurrentServiceDates`
(Dashboard.jsx / ServicesList.jsx): the effective window, whether it came
from a timeline event, and whether `today` lies inside it. -/
structure ResolvedDates where
  currentStart : Option Int
  currentEnd : Option Int
  isExtended : Bool
  isActive : Bool
deriving DecidableEq, Repr

/-- The body of `getCurrentServiceDates` after the timeline array has
been obtained and sorted: prefer the first active event in the sorted
order, then the first completed event, then the original window. -/
def resolveFromSorted (sortedTimeline : List TimelineEvent) (today : Int)
    (originalStart originalEnd : Option Int) : ResolvedDates :=
  let found :=
    match sortedTimeline.find? (isActiveEvent today) with
    | some activeTimeline =>
        (newDate activeTimeline.start_date, newDate activeTimeline.end_date, true)
    | none =>
        match sortedTimeline.filter (isCompletedEvent today) with
        | latestTimeline :: _ =>
            (newDate latestTimeline.start_date, newDate latestTimeline.end_date, true)
        | [] => (originalStart, originalEnd, false)
  { currentStart := found.1
    currentEnd := found.2.1
    isExtended := found.2.2
    isActive := jsGe (some today) found.1 && jsLe (some today) found.2.1 }

/-- The pure core of `getCurrentServiceDates`: resolution of one
service's window from its (cached) timeline array. -/
def getCurrentServiceDatesPure (serviceStartDate serviceEndDate : DateValue)
    (timelineData : List TimelineEvent) (today : Int) : ResolvedDates :=
  resolveFromSorted (stableSortBy jsLtCmp timelineData) today
    (newDate serviceStartDate) (newDate serviceEndDate)

/-- The module-level `timelineCache` object, mapping service ids to the
stored timeline arrays.  Lookup takes the most recent binding, so a new
binding for an id shadows (replaces) an older one. -/
abbrev TimelineCache := List (Nat × List TimelineEvent)

/-- `timelineCache[serviceId]` (every stored value is an array, hence
truthy, so JS's falsy check coincides with presence). -/
def cacheLookup (cache : TimelineCache) (serviceId : Nat) :
    Option (List TimelineEvent) :=
  (cache.find? (fun p => p.1 == serviceId)).map (·.2)

/-- `timelineCache[serviceId] = v`. -/
def cacheStore (cache : TimelineCache) (serviceId : Nat)
    (v : List TimelineEvent) : TimelineCache :=
  (serviceId, v) :: cache

/-- The refresh handler's cache clearing
(`Object.keys(timelineCache).forEach(key => delete timelineCache[key])`). -/
def clearTimelineCache (_cache : TimelineCache) : TimelineCache := []

/-- The full result of one `getCurrentServiceDates` call: the resolved
dates, the cache state after the call, and how many network fetches the
call performed (0 or 1). -/
structure ServiceDatesResult where
  dates : ResolvedDates
  cache : TimelineCache
  fetches : Nat
deriving DecidableEq, Repr

/-- `getCurrentServiceDates` of Dashboard.jsx / ServicesList.jsx as a
cache-state transformer.  On a cache miss it performs one fetch: on
success it stores the response's timeline array, on failure the `catch`
keeps the original dates and stores nothing.  The in-place
`timelineData.sort(...)` is reflected by re-storing the sorted array. -/
def getCurrentServiceDates (cache : TimelineCache) (serviceId : Nat)
    (serviceStartDate serviceEndDate : DateValue) (today : Int)
    (outcome : FetchOutcome) : ServiceDatesResult :=
  let originalStart := newDate serviceStartDate
  let originalEnd := newDate serviceEndDate
  match cacheLookup cache serviceId with
  | some timelineData =>
      let s := stableSortBy jsLtCmp timelineData
      { dates := resolveFromSorted s today originalStart originalEnd
        cache := cacheStore cache serviceId s
        fetches := 0 }
  | none =>
      match outcome with
      | .err =>
          { dates :=
              { currentStart := originalStart
                currentEnd := originalEnd
                isExtended := false
                isActive := jsGe (some today) originalStart && jsLe (some today) originalEnd }
            cache := cache
            fetches := 1 }
      | .ok resp =>
          let timelineData := resp.timeline.getD []
          let s := stableSortBy jsLtCmp timelineData
          { dates := resolveFromSorted s today originalStart originalEnd
            cache := cacheStore cache serviceId s
            fetches := 1 }

/-- The `service` state object of ServiceDetails.jsx, restricted to the
fields the period resolution reads. -/
structure ServiceRecord where
  start_date : DateValue
  end_date : DateValue
deriving DecidableEq, Repr

/-- The record returned by `getCurrentActiveServicePeriod`
(ServiceDetails.jsx).  `timelineType` is `none` on the return paths that
omit the field; `isCompleted` is `false` on the paths that omit it
(`undefined` is falsy). -/
structure ServicePeriod where
  startDate : Option Int
  endDate : Option Int
  isExtended : Bool
  timelineType : Option String := none
  isCompleted : Bool := false
deriving DecidableEq, Repr

/-- ServiceDetails.jsx predicate for the active timeline event:
`if (!event.start_date || !event.end_date) return false` and then
`today >= startDate && today <= endDate`. -/
def sdIsActiveEvent (today : Int) (e : TimelineEvent) : Bool :=
  if !e.start_date.truthy || !e.end_date.truthy then false
  else jsGe (some today) (newDate e.start_date) && jsLe (some today) (newDate e.end_date)

/-- ServiceDetails.jsx predicate for a completed timeline event:
`if (!event.end_date) return false` and then
`new Date(event.end_date) < today`. -/
def sdIsCompletedEvent (today : Int) (e : TimelineEvent) : Bool :=
  if !e.end_date.truthy then false
  else jsLt (newDate e.end_date) (some today)

/-- ServiceDetails.jsx comparator for sorting completed events:
`if (!a.end_date || !b.end_date) return 0` and otherwise
`new Date(b.end_date) - new Date(a.end_date)`; true when the comparator
value is negative. -/
def sdLtCmp (x y : TimelineEvent) : Bool :=
  if !x.end_date.truthy || !y.end_date.truthy then false
  else
    match newDate x.end_date, newDate y.end_date with
    | some a, some b => decide (b < a)
    | _, _ => false

/-- The `latestTimeline.start_date || service.start_date || today` chain
of the completed-fallback return: the first truthy date field wins, and
`new Date` of the `today` Date object clones it. -/
def firstTruthyDate (eventField serviceField : DateValue) (today : Int) : Option Int :=
  if eventField.truthy then newDate eventField
  else if serviceField.truthy then newDate serviceField
  else some today

/-- `getCurrentActiveServicePeriod` of ServiceDetails.jsx: given the
`service` state (possibly null), the fetched `timelineHistory` array and
`today`, derive the effective period.  Unlike the dashboard variant, the
active-event search runs over the timeline array in its stored order —
no sort happens before the `find`. -/
def getCurrentActiveServicePeriod (service : Option ServiceRecord)
    (timelineHistory : List TimelineEvent) (today : Int) : ServicePeriod :=
  match service with
  | none =>
      { startDate := some today
        endDate := some today
        isExtended := false
        timelineType := some "No Service Data" }
  | some service =>
      let hasValidDates := service.start_date.truthy && service.end_date.truthy
      if timelineHistory.isEmpty then
        if hasValidDates then
          { startDate := newDate service.start_date
            endDate := newDate service.end_date
            isExtended := false }
        else
          { startDate := some today, endDate := some today, isExtended := false }
      else
        match timelineHistory.find? (sdIsActiveEvent today) with
        | some activeTimeline =>
            { startDate := newDate activeTimeline.start_date
              endDate := newDate activeTimeline.end_date
              isExtended := true
              timelineType := some (activeTimeline.timeline_type.getD "Extended Period") }
        | none =>
            match stableSortBy sdLtCmp (timelineHistory.filter (sdIsCompletedEvent today)) with
            | latestTimeline :: _ =>
                { startDate := firstTruthyDate latestTimeline.start_date service.start_date today
                  endDate := firstTruthyDate latestTimeline.end_date service.end_date today
                  isExtended := true
                  timelineType := some (latestTimeline.timeline_type.getD "Completed Period")
                  isCompleted := true }
            | [] =>
                if hasValidDates then
                  { startDate := newDate service.start_date
                    endDate := newDate service.end_date
                    isExtended := false }
                else
                  { startDate := some today, endDate := some today, isExtended := false }

/-- Status values produced by `calculateServiceStatus`. -/
inductive StatusKind where
  | unknown
  | expired
  | expiringSoon
  | active
deriving DecidableEq, Repr

/-- One return value of `calculateServiceStatus`: status, colour and
human-facing label. -/
structure ServiceStatus where
  status : StatusKind
  color : String
  label : String
deriving DecidableEq, Repr

/-- `Math.floor((effectiveEndDate - today) / 86400000)` on JS numbers:
NaN propagates (`none`), otherwise floor division. -/
def daysFloor (effectiveEndDate : Option Int) (today : Int) : Option Int :=
  effectiveEndDate.map (fun e => Int.fdiv (e - today) 86400000)

/-- JS `x <= (k : Int)` where `x` may be NaN. -/
def jsLeInt (x : Option Int) (k : Int) : Bool :=
  match x with
  | some a => decide (a ≤ k)
  | none => false

/-- JS `x < (k : Int)` where `x` may be NaN. -/
def jsLtInt (x : Option Int) (k : Int) : Bool :=
  match x with
  | some a => decide (a < k)
  | none => false

/-- String rendering of a JS number holding a day count (`NaN` prints as
"NaN"). -/
def jsNumToString : Option Int → String
  | some a => toString a
  | none => "NaN"

/-- The classification part of `calculateServiceStatus`
(ServiceDetails.jsx lines 216-228), as a function of the effective end
date: expired when `today > effectiveEndDate`; otherwise expiring-soon
with a pluralized day count when the floored day difference is at most
7; the `daysRemaining < 0` branch is kept as written; otherwise active. -/
def statusFromEnd (effectiveEndDate : Option Int) (today : Int) : ServiceStatus :=
  if jsLt effectiveEndDate (some today) then
    { status := .expired, color := "#ef4444", label := "Expired" }
  else
    let daysRemaining := daysFloor effectiveEndDate today
    if jsLeInt daysRemaining 7 then
      { status := .expiringSoon
        color := "#f59e0b"
        label := "Expiring in " ++ jsNumToString daysRemaining ++
          (if daysRemaining != some 1 then " days" else " day") }
    else if jsLtInt daysRemaining 0 then
      { status := .expired, color := "#ef4444", label := "Expired" }
    else
      { status := .active, color := "#10b981", label := "Active" }

/-- `calculateServiceStatus` of ServiceDetails.jsx: unknown when the
service is null, otherwise classify against the resolved period's end. -/
def calculateServiceStatus (service : Option ServiceRecord)
    (timelineHistory : List TimelineEvent) (today : Int) : ServiceStatus :=
  match service with
  | none => { status := .unknown, color := "#94a3b8", label := "Unknown" }
  | some sv =>
      statusFromEnd
        (getCurrentActiveServicePeriod (some sv) timelineHistory today).endDate
        today

/-- `daysLeft` of `renderService` (ServicesList.jsx line 199) for an
active service: `Math.floor((serviceDates.currentEnd - new Date()) /
86400000)`; NaN when the current end is an Invalid Date. -/
def renderServiceDaysLeft (currentEnd : Option Int) (now : Int) : Option Int :=
  currentEnd.map (fun e => Int.fdiv (e - now) 86400000)

/-- The day-count badge text of `renderService` (ServicesList.jsx line
307): "Expires today" at zero, otherwise a pluralized count. -/
def renderServiceDaysText (daysLeft : Int) : String :=
  if daysLeft = 0 then "Expires today"
  else toString daysLeft ++ " day" ++ (if daysLeft ≠ 1 then "s" else "") ++ " remaining"

/-- Ceiling division of JS `Math.ceil(a / b)` for an integer numerator
and positive integer denominator. -/
def jsCeilDiv (a b : Int) : Int :=
  -(Int.fdiv (-a) b)

/-- `daysRemaining` of the dashboard `ServiceCard` (Dashboard.jsx line
454): `Math.ceil((endDate - today) / 86400000)` — a ceiling, not a
floor. -/
def serviceCardDaysRemaining (endDate : Option Int) (today : Int) : Option Int :=
  endDate.map (fun e => jsCeilDiv (e - today) 86400000)

/-! ### Helper lemmas about the stable sort -/

/-- End timestamp of an event, defaulting to 0 for an unparseable end
(only used under hypotheses that make the end parseable). -/
def endT (e : TimelineEvent) : Int :=
  (newDate e.end_date).getD 0

/-- An event whose end date field parses to a real timestamp. -/
def hasSomeEnd (e : TimelineEvent) : Bool :=
  (newDate e.end_date).isSome

/-- An event whose start and end fields are both parseable date strings,
matching the data model of timeline records. -/
def wfEvent (e : TimelineEvent) : Bool :=
  (match e.start_date with | .dateStr _ => true | _ => false) &&
  (match e.end_date with | .dateStr _ => true | _ => false)

theorem wfEvent_hasSomeEnd {e : TimelineEvent} (h : wfEvent e = true) :
    hasSomeEnd e = true := by
  unfold wfEvent at h
  unfold hasSomeEnd newDate
  cases hs : e.start_date <;> cases he : e.end_date <;>
    simp [hs, he] at h ⊢

theorem insertSorted_perm (lt : TimelineEvent → TimelineEvent → Bool)
    (x : TimelineEvent) (l : List TimelineEvent) :
    (insertSorted lt x l).Perm (x :: l) := by
  induction l with
  | nil => simp [insertSorted]
  | cons y ys ih =>
      unfold insertSorted
      by_cases h : lt y x = true
      · simp only [h, if_true]
        exact ((ih.cons y).trans (List.Perm.swap x y ys))
      · simp only [Bool.not_eq_true] at h
        simp [h]

theorem stableSortBy_perm (lt : TimelineEvent → TimelineEvent → Bool)
    (l : List TimelineEvent) : (stableSortBy lt l).Perm l := by
  induction l with
  | nil => simp [stableSortBy]
  | cons x xs ih =>
      unfold stableSortBy
      exact (insertSorted_perm lt x (stableSortBy lt xs)).trans (ih.cons x)

theorem mem_stableSortBy {lt : TimelineEvent → TimelineEvent → Bool}
    {l : List TimelineEvent} {e : TimelineEvent} :
    e ∈ stableSortBy lt l ↔ e ∈ l :=
  (stableSortBy_perm lt l).mem_iff

/-- Non-increasing end timestamps along a list. -/
def DescEnds (l : List TimelineEvent) : Prop :=
  List.Pairwise (fun a b => endT b ≤ endT a) l

theorem insertSorted_pairwise (lt : TimelineEvent → TimelineEvent → Bool)
    (P : TimelineEvent → Bool)
    (hlt : ∀ a b, P a = true → P b = true → lt b a = false → endT b ≤ endT a)
    (hlt' : ∀ a b, lt b a = true → endT a ≤ endT b)
    (x : TimelineEvent) (l : List TimelineEvent)
    (hx : P x = true) (hl : ∀ e ∈ l, P e = true)
    (h : DescEnds l) : DescEnds (insertSorted lt x l) := by
  induction l with
  | nil => simp [insertSorted, DescEnds]
  | cons y ys ih =>
      have hy : P y = true := hl y (List.mem_cons_self y ys)
      have hys : ∀ e ∈ ys, P e = true := fun e he => hl e (List.mem_cons_of_mem y he)
      rw [DescEnds, List.pairwise_cons] at h
      unfold insertSorted
      by_cases hcase : lt y x = true
      · simp only [hcase, if_true]
        rw [DescEnds, List.pairwise_cons]
        constructor
        · intro z hz
          have hz' : z ∈ x :: ys := (insertSorted_perm lt x ys).mem_iff.mp hz
          rcases List.mem_cons.mp hz' with hzx | hzys
          · exact hzx ▸ hlt' x y hcase
          · exact h.1 z hzys
        · exact ih hys h.2
      · simp only [Bool.not_eq_true] at hcase
        simp only [hcase, Bool.false_eq_true, if_false]
        rw [DescEnds, List.pairwise_cons]
        constructor
        · intro z hz
          rcases List.mem_cons.mp hz with hzy | hzys
          · exact hzy ▸ hlt x y hx hy hcase
          · exact le_trans (h.1 z hzys) (hlt x y hx hy hcase)
        · exact List.pairwise_cons.mpr ⟨h.1, h.2⟩

theorem stableSortBy_pairwise (lt : TimelineEvent → TimelineEvent → Bool)
    (P : TimelineEvent → Bool)
    (hlt : ∀ a b, P a = true → P b = true → lt b a = false → endT b ≤ endT a)
    (hlt' : ∀ a b, lt b a = true → endT a ≤ endT b)
    (l : List TimelineEvent) (hl : ∀ e ∈ l, P e = true) :
    DescEnds (stableSortBy lt l) := by
  induction l with
  | nil => simp [stableSortBy, DescEnds]
  | cons x xs ih =>
      unfold stableSortBy
      exact insertSorted_pairwise lt P hlt hlt' x (stableSortBy lt xs)
        (hl x (List.mem_cons_self x xs))
        (fun e he => hl e (List.mem_cons_of_mem x (mem_stableSortBy.mp he)))
        (ih (fun e he => hl e (List.mem_cons_of_mem x he)))

theorem jsLtCmp_false_le {a b : TimelineEvent}
    (ha : hasSomeEnd a = true) (hb : hasSomeEnd b = true)
    (h : jsLtCmp b a = false) : endT b ≤ endT a := by
  unfold hasSomeEnd at ha hb
  unfold jsLtCmp at h
  unfold endT
  cases hae : newDate a.end_date with
  | none => rw [hae] at ha; simp at ha
  | some ta =>
      cases hbe : newDate b.end_date with
      | none => rw [hbe] at hb; simp at hb
      | some tb =>
          rw [hae, hbe] at h
          simp only [decide_eq_false_iff_not, not_lt] at h
          simpa [hae, hbe] using h

theorem jsLtCmp_true_le {a b : TimelineEvent}
    (h : jsLtCmp b a = true) : endT a ≤ endT b := by
  unfold jsLtCmp at h
  unfold endT
  cases hae : newDate a.end_date <;> cases hbe : newDate b.end_date <;>
    rw [hbe, hae] at h <;> simp_all
  · omega

theorem find_max_of_descEnds (p : TimelineEvent → Bool)
    (l : List TimelineEvent) (h : DescEnds l)
    (a : TimelineEvent) (ha : a ∈ l) (hpa : p a = true) :
    ∃ b, l.find? p = some b ∧ p b = true ∧ b ∈ l ∧
      ∀ c ∈ l, p c = true → endT c ≤ endT b := by
  induction l with
  | nil => cases ha
  | cons x xs ih =>
      rw [DescEnds, List.pairwise_cons] at h
      by_cases hpx : p x = true
      · refine ⟨x, ?_, hpx, List.mem_cons_self x xs, ?_⟩
        · simp [List.find?, hpx]
        · intro c hc _
          rcases List.mem_cons.mp hc with hcx | hcxs
          · subst hcx; exact le_refl _
          · exact h.1 c hcxs
      · simp only [Bool.not_eq_true] at hpx
        have hax : a ∈ xs := by
          rcases List.mem_cons.mp ha with h' | h'
          · subst h'; rw [hpa] at hpx; cases hpx
          · exact h'
        obtain ⟨b, hfind, hpb, hbmem, hmax⟩ := ih h.2 hax
        refine ⟨b, ?_, hpb, List.mem_cons_of_mem x hbmem, ?_⟩
        · simp [List.find?, hpx, hfind]
        · intro c hc hpc
          rcases List.mem_cons.mp hc with hcx | hcxs
          · subst hcx; rw [hpc] at hpx; cases hpx
          · exact hmax c hcxs hpc

/-- Characterize `Int.fdiv` by one day (86400000 ms) through the
bracketing multiple. -/
theorem fdiv_day (a q : Int) (h1 : 86400000 * q ≤ a)
    (h2 : a < 86400000 * (q + 1)) : Int.fdiv a 86400000 = q := by
  rw [Int.fdiv_eq_ediv a (by norm_num)]
  exact ((Int.ediv_emod_unique (a := a) (b := 86400000)
    (r := a - 86400000 * q) (q := q) (by norm_num)).mpr
    ⟨by ring, by omega, by omega⟩).1

theorem filter_head_max_of_descEnds (p : TimelineEvent → Bool)
    (l : List TimelineEvent) (h : DescEnds l)
    (b : TimelineEvent) (rest : List TimelineEvent)
    (hf : l.filter p = b :: rest) :
    p b = true ∧ b ∈ l ∧ ∀ c ∈ l, p c = true → endT c ≤ endT b := by
  induction l with
  | nil => simp [List.filter] at hf
  | cons x xs ih =>
      rw [DescEnds, List.pairwise_cons] at h
      by_cases hpx : p x = true
      · rw [List.filter_cons_of_pos hpx] at hf
        injection hf with h1 _
        subst h1
        refine ⟨hpx, List.mem_cons_self x xs, ?_⟩
        intro c hc _
        rcases List.mem_cons.mp hc with hcx | hcxs
        · subst hcx; exact le_refl _
        · exact h.1 c hcxs
      · simp only [Bool.not_eq_true] at hpx
        rw [List.filter_cons_of_neg (by simp [hpx])] at hf
        obtain ⟨hpb, hbmem, hmax⟩ := ih h.2 hf
        refine ⟨hpb, List.mem_cons_of_mem x hbmem, ?_⟩
        intro c hc hpc
        rcases List.mem_cons.mp hc with hcx | hcxs
        · subst hcx; rw [hpc] at hpx; cases hpx
        · exact hmax c hcxs hpc

/-! ### Claim theorems -/

/-- C2: for every original window (originalStart, originalEnd) and every
now, if the event set is empty then the resolver returns exactly the
original window with isExtended = false and isActive true iff now lies
within [originalStart, originalEnd] inclusive; the service-details
variant likewise returns the original window un-extended. -/
theorem C2_empty_eventset_fallback (s e today : Int) :
    (getCurrentServiceDatesPure (.dateStr s) (.dateStr e) [] today).currentStart = some s ∧
    (getCurrentServiceDatesPure (.dateStr s) (.dateStr e) [] today).currentEnd = some e ∧
    (getCurrentServiceDatesPure (.dateStr s) (.dateStr e) [] today).isExtended = false ∧
    ((getCurrentServiceDatesPure (.dateStr s) (.dateStr e) [] today).isActive = true ↔
      s ≤ today ∧ today ≤ e) ∧
    getCurrentActiveServicePeriod (some ⟨.dateStr s, .dateStr e⟩) [] today =
      { startDate := some s, endDate := some e, isExtended := false } := by
  refine ⟨rfl, rfl, rfl, ?_, rfl⟩
  simp [getCurrentServiceDatesPure, resolveFromSorted, stableSortBy, newDate, jsGe, jsLe]

/-- C4 counterexample: the dashboard/services-list resolver, given a
service whose dates are both null and an empty event set, does not
substitute now for the bounds — `new Date(null)` is the epoch, so with
now = 1000 the resolved start is timestamp 0, not 1000. -/
theorem C4_counterexample :
    (getCurrentServiceDatesPure .nullv .nullv [] 1000).currentStart = some 0 ∧
    (getCurrentServiceDatesPure .nullv .nullv [] 1000).currentEnd = some 0 ∧
    (getCurrentServiceDatesPure .nullv .nullv [] 1000).currentStart ≠ some 1000 := by
  decide

/-- C4 amended: with null/undefined (falsy) dates and an empty event
set, the service-details resolver substitutes now for both bounds (a
zero-length window); the dashboard/services-list resolver returns
without error but keeps the parsed original values (epoch for null,
Invalid Date for undefined), un-extended and inactive. -/
theorem C4_degenerate_input (today : Int) (sS sE : DateValue)
    (hS : sS.truthy = false) (hE : sE.truthy = false) (htoday : 0 < today) :
    getCurrentActiveServicePeriod (some ⟨sS, sE⟩) [] today =
      { startDate := some today, endDate := some today, isExtended := false } ∧
    (getCurrentServiceDatesPure sS sE [] today).currentStart = newDate sS ∧
    (getCurrentServiceDatesPure sS sE [] today).currentEnd = newDate sE ∧
    (getCurrentServiceDatesPure sS sE [] today).isExtended = false ∧
    (getCurrentServiceDatesPure sS sE [] today).isActive = false := by
  cases sS <;> cases sE <;>
    simp_all [getCurrentActiveServicePeriod, getCurrentServiceDatesPure,
      resolveFromSorted, stableSortBy, DateValue.truthy, newDate, jsGe, jsLe]

/-- C4 witness: the amended degenerate-input law at a concrete input. -/
theorem C4_degenerate_input_witness :
    DateValue.nullv.truthy = false ∧ DateValue.undef.truthy = false ∧ (0 : Int) < 1000 ∧
    (getCurrentActiveServicePeriod (some ⟨.nullv, .undef⟩) [] 1000 =
      { startDate := some 1000, endDate := some 1000, isExtended := false } ∧
    (getCurrentServiceDatesPure .nullv .undef [] 1000).currentStart = newDate .nullv ∧
    (getCurrentServiceDatesPure .nullv .undef [] 1000).currentEnd = newDate .undef ∧
    (getCurrentServiceDatesPure .nullv .undef [] 1000).isExtended = false ∧
    (getCurrentServiceDatesPure .nullv .undef [] 1000).isActive = false) :=
  ⟨by decide, by decide, by decide,
    C4_degenerate_input 1000 .nullv .undef (by decide) (by decide) (by decide)⟩

/-- C5 counterexample: with an effective end 23 hours (82800000 ms)
after now, the dashboard ServiceCard's day count is
`Math.ceil(82800000 / 86400000) = 1`, not the floor value 0 that the
claim requires of every screen. -/
theorem C5_counterexample :
    serviceCardDaysRemaining (some 82800000) 0 = some 1 ∧
    Int.fdiv (82800000 - 0) 86400000 = 0 ∧
    serviceCardDaysRemaining (some 82800000) 0 ≠ some 0 := by
  decide

/-- C5 amended: day counts are floored on the services-list screen
(daysLeft, with label "Expires today" at 0) and on the service-details
screen (daysRemaining), so an end under 24 hours away reports 0 days;
the dashboard ServiceCard instead uses a ceiling and reports 1 day for
any end strictly within the next 24 hours. -/
theorem C5_day_count_floor (now d : Int) (h0 : 0 ≤ d) (h1 : d < 86400000) :
    renderServiceDaysLeft (some (now + d)) now = some 0 ∧
    renderServiceDaysText 0 = "Expires today" ∧
    daysFloor (some (now + d)) now = some 0 ∧
    serviceCardDaysRemaining (some (now + d)) now =
      some (if d = 0 then 0 else 1) := by
  have hsub : now + d - now = d := by ring
  refine ⟨?_, rfl, ?_, ?_⟩
  · simp only [renderServiceDaysLeft, Option.map_some', hsub]
    rw [fdiv_day d 0 (by omega) (by omega)]
  · simp only [daysFloor, Option.map_some', hsub]
    rw [fdiv_day d 0 (by omega) (by omega)]
  · simp only [serviceCardDaysRemaining, Option.map_some', hsub, jsCeilDiv]
    by_cases hd : d = 0
    · subst hd; simp
    · rw [if_neg hd, fdiv_day (-d) (-1) (by omega) (by omega)]
      norm_num

/-- C5 witness: the amended day-count law at a concrete input (end 23
hours after now). -/
theorem C5_day_count_floor_witness :
    (0 : Int) ≤ 82800000 ∧ (82800000 : Int) < 86400000 ∧
    (renderServiceDaysLeft (some ((0 : Int) + 82800000)) 0 = some 0 ∧
    renderServiceDaysText 0 = "Expires today" ∧
    daysFloor (some ((0 : Int) + 82800000)) 0 = some 0 ∧
    serviceCardDaysRemaining (some ((0 : Int) + 82800000)) 0 =
      some (if (82800000 : Int) = 0 then 0 else 1)) :=
  ⟨by decide, by decide, C5_day_count_floor 0 82800000 (by decide) (by decide)⟩

/-- The classifier branch facts used by C6, separated for reuse: the
floored day count is nonnegative whenever now has not passed the end. -/
theorem daysRemaining_nonneg {v today : Int} (h : today ≤ v) :
    0 ≤ Int.fdiv (v - today) 86400000 := by
  rw [Int.fdiv_eq_ediv _ (by norm_num)]
  exact Int.ediv_nonneg (by omega) (by norm_num)

/-- C6: the classifier returns Expired iff now > effectiveEnd;
otherwise, with daysRemaining the floored day difference, it returns
Expiring-soon with the exact pluralized day count iff daysRemaining ≤ 7
and Active otherwise; in particular effectiveEnd = now + 7 days is
Expiring-soon, now + 8 days is Active, and now - 1 second is Expired. -/
theorem C6_status_classifier (v today : Int) :
    ((statusFromEnd (some v) today).status = .expired ↔ v < today) ∧
    (today ≤ v →
      ((Int.fdiv (v - today) 86400000 ≤ 7 →
        statusFromEnd (some v) today =
          { status := .expiringSoon, color := "#f59e0b",
            label := "Expiring in " ++ toString (Int.fdiv (v - today) 86400000) ++
              (if Int.fdiv (v - today) 86400000 = 1 then " day" else " days") }) ∧
      (7 < Int.fdiv (v - today) 86400000 →
        statusFromEnd (some v) today =
          { status := .active, color := "#10b981", label := "Active" }))) ∧
    statusFromEnd (some (today + 7 * 86400000)) today =
      { status := .expiringSoon, color := "#f59e0b", label := "Expiring in 7 days" } ∧
    statusFromEnd (some (today + 8 * 86400000)) today =
      { status := .active, color := "#10b981", label := "Active" } ∧
    statusFromEnd (some (today - 1000)) today =
      { status := .expired, color := "#ef4444", label := "Expired" } := by
  have main : ∀ w : Int, today ≤ w →
      ((Int.fdiv (w - today) 86400000 ≤ 7 →
        statusFromEnd (some w) today =
          { status := .expiringSoon, color := "#f59e0b",
            label := "Expiring in " ++ toString (Int.fdiv (w - today) 86400000) ++
              (if Int.fdiv (w - today) 86400000 = 1 then " day" else " days") }) ∧
      (7 < Int.fdiv (w - today) 86400000 →
        statusFromEnd (some w) today =
          { status := .active, color := "#10b981", label := "Active" })) := by
    intro w hw
    have hnlt : ¬ (w < today) := by omega
    constructor
    · intro hd7
      simp only [statusFromEnd, jsLt, hnlt, decide_eq_true_eq, if_false,
        daysFloor, Option.map_some', jsLeInt, hd7, decide_True, if_true,
        jsNumToString]
      by_cases hd1 : Int.fdiv (w - today) 86400000 = 1 <;>
        simp [hd1]
    · intro hd7
      have hd0 := daysRemaining_nonneg hw
      simp only [statusFromEnd, jsLt, hnlt, decide_eq_true_eq, if_false,
        daysFloor, Option.map_some', jsLeInt, jsLtInt]
      rw [if_neg (by simp; omega), if_neg (by simp; omega)]
  refine ⟨?_, main v, ?_, ?_, ?_⟩
  · by_cases h : v < today
    · simp [statusFromEnd, jsLt, h]
    · have hle : today ≤ v := by omega
      rcases le_or_lt (Int.fdiv (v - today) 86400000) 7 with hd | hd
      · rw [(main v hle).1 hd]
        simp [h]
      · rw [(main v hle).2 hd]
        simp [h]
  · have h7 : Int.fdiv (today + 7 * 86400000 - today) 86400000 = 7 := by
      rw [show today + 7 * 86400000 - today = 7 * 86400000 by ring]
      exact fdiv_day _ 7 (by norm_num) (by norm_num)
    have := (main (today + 7 * 86400000) (by omega)).1 (by rw [h7])
    rw [this, h7]
    rfl
  · have h8 : Int.fdiv (today + 8 * 86400000 - today) 86400000 = 8 := by
      rw [show today + 8 * 86400000 - today = 8 * 86400000 by ring]
      exact fdiv_day _ 8 (by norm_num) (by norm_num)
    exact (main (today + 8 * 86400000) (by omega)).2 (by rw [h8]; norm_num)
  · simp [statusFromEnd, jsLt, show today - 1000 < today by omega]

/-- C6 witness: the classifier boundary facts at a concrete instant. -/
theorem C6_status_classifier_witness :
    ((statusFromEnd (some 604800000) 0).status = .expired ↔ (604800000 : Int) < 0) ∧
    ((0 : Int) ≤ 604800000 →
      ((Int.fdiv ((604800000 : Int) - 0) 86400000 ≤ 7 →
        statusFromEnd (some 604800000) 0 =
          { status := .expiringSoon, color := "#f59e0b",
            label := "Expiring in " ++ toString (Int.fdiv ((604800000 : Int) - 0) 86400000) ++
              (if Int.fdiv ((604800000 : Int) - 0) 86400000 = 1 then " day" else " days") }) ∧
      (7 < Int.fdiv ((604800000 : Int) - 0) 86400000 →
        statusFromEnd (some 604800000) 0 =
          { status := .active, color := "#10b981", label := "Active" }))) ∧
    statusFromEnd (some ((0 : Int) + 7 * 86400000)) 0 =
      { status := .expiringSoon, color := "#f59e0b", label := "Expiring in 7 days" } ∧
    statusFromEnd (some ((0 : Int) + 8 * 86400000)) 0 =
      { status := .active, color := "#10b981", label := "Active" } ∧
    statusFromEnd (some ((0 : Int) - 1000)) 0 =
      { status := .expired, color := "#ef4444", label := "Expired" } :=
  C6_status_classifier 604800000 0

/-- Cache lookup after a store finds the stored value. -/
theorem cacheLookup_store_self (cache : TimelineCache) (serviceId : Nat)
    (v : List TimelineEvent) :
    cacheLookup (cacheStore cache serviceId v) serviceId = some v := by
  simp [cacheLookup, cacheStore, List.find?]

/-- Cache lookup for a different id is unaffected by a store. -/
theorem cacheLookup_store_other (cache : TimelineCache) (serviceId id' : Nat)
    (v : List TimelineEvent) (h : id' ≠ serviceId) :
    cacheLookup (cacheStore cache serviceId v) id' = cacheLookup cache id' := by
  have hbeq : (serviceId == id') = false := by simpa using Ne.symm h
  simp [cacheLookup, cacheStore, List.find?, hbeq]

/-- C7: two successive resolver calls for the same id with no
intervening clear, the first fetch succeeding, perform exactly one
network fetch in total; after the clear operation the next call for the
id performs a new fetch. -/
theorem C7_cache_idempotence (cache : TimelineCache) (serviceId : Nat)
    (sS sE sR sT : DateValue) (today today2 : Int) (resp : HistoryResponse)
    (outcome2 : FetchOutcome)
    (hmiss : cacheLookup cache serviceId = none) :
    (getCurrentServiceDates cache serviceId sS sE today (.ok resp)).fetches +
      (getCurrentServiceDates
        (getCurrentServiceDates cache serviceId sS sE today (.ok resp)).cache
        serviceId sR sT today2 outcome2).fetches = 1 ∧
    (getCurrentServiceDates (clearTimelineCache cache) serviceId sS sE today
      (.ok resp)).fetches = 1 := by
  constructor
  · simp [getCurrentServiceDates, hmiss, cacheLookup_store_self]
  · simp [getCurrentServiceDates, clearTimelineCache, cacheLookup, List.find?]

/-- C7 witness: the cache-idempotence law at a concrete miss state. -/
theorem C7_cache_idempotence_witness :
    cacheLookup [] 1 = none ∧
    ((getCurrentServiceDates [] 1 .nullv .nullv 5 (.ok ⟨some [], none⟩)).fetches +
      (getCurrentServiceDates
        (getCurrentServiceDates [] 1 .nullv .nullv 5 (.ok ⟨some [], none⟩)).cache
        1 .nullv .nullv 6 .err).fetches = 1 ∧
    (getCurrentServiceDates (clearTimelineCache []) 1 .nullv .nullv 5
      (.ok ⟨some [], none⟩)).fetches = 1) :=
  ⟨by decide, C7_cache_idempotence [] 1 .nullv .nullv .nullv .nullv 5 6
    ⟨some [], none⟩ .err (by decide)⟩

/-- C8: a failed timeline fetch stores nothing — the cache is unchanged,
the resolver degrades to the original dates for that call, and a
subsequent call for the same id attempts a new network fetch. -/
theorem C8_negative_result_non_caching (cache : TimelineCache) (serviceId : Nat)
    (sS sE sR sT : DateValue) (today today2 : Int) (outcome2 : FetchOutcome)
    (hmiss : cacheLookup cache serviceId = none) :
    (getCurrentServiceDates cache serviceId sS sE today .err).cache = cache ∧
    (getCurrentServiceDates cache serviceId sS sE today .err).dates =
      { currentStart := newDate sS, currentEnd := newDate sE, isExtended := false,
        isActive := jsGe (some today) (newDate sS) && jsLe (some today) (newDate sE) } ∧
    (getCurrentServiceDates
      (getCurrentServiceDates cache serviceId sS sE today .err).cache
      serviceId sR sT today2 outcome2).fetches = 1 := by
  refine ⟨by simp [getCurrentServiceDates, hmiss],
    by simp [getCurrentServiceDates, hmiss], ?_⟩
  cases outcome2 <;> simp [getCurrentServiceDates, hmiss]

/-- C8 witness: the negative-result non-caching law at a concrete miss
state. -/
theorem C8_negative_result_non_caching_witness :
    cacheLookup [] 2 = none ∧
    ((getCurrentServiceDates [] 2 (.dateStr 0) (.dateStr 10) 5 .err).cache = [] ∧
    (getCurrentServiceDates [] 2 (.dateStr 0) (.dateStr 10) 5 .err).dates =
      { currentStart := newDate (.dateStr 0), currentEnd := newDate (.dateStr 10),
        isExtended := false,
        isActive := jsGe (some 5) (newDate (.dateStr 0)) &&
          jsLe (some 5) (newDate (.dateStr 10)) } ∧
    (getCurrentServiceDates
      (getCurrentServiceDates [] 2 (.dateStr 0) (.dateStr 10) 5 .err).cache
      2 (.dateStr 0) (.dateStr 10) 6 .err).fetches = 1) :=
  ⟨by decide, C8_negative_result_non_caching [] 2 (.dateStr 0) (.dateStr 10)
    (.dateStr 0) (.dateStr 10) 5 6 .err (by decide)⟩

/-- C9 counterexample: resolution mutates an existing cache entry — the
in-place `sort` reorders the stored array.  A stored entry holding two
events in end-ascending order is re-stored in end-descending order by a
resolution call for that id. -/
theorem C9_counterexample :
    cacheLookup
      ((getCurrentServiceDates
        [(1, [⟨.dateStr 0, .dateStr 40, none⟩, ⟨.dateStr 10, .dateStr 60, none⟩])]
        1 (.dateStr 0) (.dateStr 10) 5 .err).cache) 1 =
      some [⟨.dateStr 10, .dateStr 60, none⟩, ⟨.dateStr 0, .dateStr 40, none⟩] ∧
    ([⟨.dateStr 10, .dateStr 60, none⟩, ⟨.dateStr 0, .dateStr 40, none⟩] :
        List TimelineEvent) ≠
      [⟨.dateStr 0, .dateStr 40, none⟩, ⟨.dateStr 10, .dateStr 60, none⟩] := by
  decide

/-- C9 amended: a resolution call never changes an existing entry's
element membership (the re-stored entry is a permutation of the old
one) and never touches other ids' entries, but it does re-sort the
stored entry in place by end date descending, so the stored order can
change; only the explicit clear removes entries. -/
theorem C9_cache_entry_membership (cache : TimelineCache) (serviceId id' : Nat)
    (l : List TimelineEvent) (sS sE : DateValue) (today : Int)
    (outcome : FetchOutcome)
    (hhit : cacheLookup cache serviceId = some l) :
    cacheLookup
      (getCurrentServiceDates cache serviceId sS sE today outcome).cache
      serviceId = some (stableSortBy jsLtCmp l) ∧
    (stableSortBy jsLtCmp l).Perm l ∧
    (id' ≠ serviceId →
      cacheLookup
        (getCurrentServiceDates cache serviceId sS sE today outcome).cache
        id' = cacheLookup cache id') := by
  refine ⟨?_, stableSortBy_perm jsLtCmp l, ?_⟩
  · simp [getCurrentServiceDates, hhit, cacheLookup_store_self]
  · intro hne
    simp [getCurrentServiceDates, hhit, cacheLookup_store_other _ _ _ _ hne]

/-- C9 witness: the membership-preservation law at a concrete cache
state. -/
theorem C9_cache_entry_membership_witness :
    cacheLookup [(1, [(⟨.dateStr 0, .dateStr 40, none⟩ : TimelineEvent)])] 1 =
      some [⟨.dateStr 0, .dateStr 40, none⟩] ∧
    (cacheLookup
      ((getCurrentServiceDates [(1, [⟨.dateStr 0, .dateStr 40, none⟩])] 1
        .nullv .nullv 5 .err).cache) 1 =
      some (stableSortBy jsLtCmp [⟨.dateStr 0, .dateStr 40, none⟩]) ∧
    (stableSortBy jsLtCmp
      [(⟨.dateStr 0, .dateStr 40, none⟩ : TimelineEvent)]).Perm
      [⟨.dateStr 0, .dateStr 40, none⟩] ∧
    ((2 : Nat) ≠ 1 →
      cacheLookup
        ((getCurrentServiceDates [(1, [⟨.dateStr 0, .dateStr 40, none⟩])] 1
          .nullv .nullv 5 .err).cache) 2 =
        cacheLookup [(1, [⟨.dateStr 0, .dateStr 40, none⟩])] 2)) :=
  ⟨by decide, C9_cache_entry_membership
    [(1, [⟨.dateStr 0, .dateStr 40, none⟩])] 1 2
    [⟨.dateStr 0, .dateStr 40, none⟩] .nullv .nullv 5 .err (by decide)⟩

/-- C10: the dashboard/services-list resolver reads only the timeline
partition of the history response — two responses agreeing on the
timeline array but differing arbitrarily in the maintenance array
produce identical results (dates, cache and fetch count). -/
theorem C10_maintenance_independence (cache : TimelineCache) (serviceId : Nat)
    (sS sE : DateValue) (today : Int) (r1 r2 : HistoryResponse)
    (h : r1.timeline = r2.timeline) :
    getCurrentServiceDates cache serviceId sS sE today (.ok r1) =
      getCurrentServiceDates cache serviceId sS sE today (.ok r2) := by
  cases hc : cacheLookup cache serviceId <;>
    simp [getCurrentServiceDates, hc, h]

/-- C10 witness: two responses with the same timeline but different
maintenance arrays resolve identically. -/
theorem C10_maintenance_independence_witness :
    (⟨some [⟨.dateStr 0, .dateStr 40, none⟩],
        some [⟨6, 100, .dateStr 0, .dateStr 40⟩]⟩ : HistoryResponse).timeline =
      (⟨some [⟨.dateStr 0, .dateStr 40, none⟩], none⟩ : HistoryResponse).timeline ∧
    getCurrentServiceDates [] 3 (.dateStr 0) (.dateStr 10) 5
      (.ok ⟨some [⟨.dateStr 0, .dateStr 40, none⟩],
        some [⟨6, 100, .dateStr 0, .dateStr 40⟩]⟩) =
    getCurrentServiceDates [] 3 (.dateStr 0) (.dateStr 10) 5
      (.ok ⟨some [⟨.dateStr 0, .dateStr 40, none⟩], none⟩) :=
  ⟨rfl, C10_maintenance_independence [] 3 (.dateStr 0) (.dateStr 10) 5
    ⟨some [⟨.dateStr 0, .dateStr 40, none⟩],
      some [⟨6, 100, .dateStr 0, .dateStr 40⟩]⟩
    ⟨some [⟨.dateStr 0, .dateStr 40, none⟩], none⟩ rfl⟩

/-- For well-formed events the detail screen's active predicate agrees
with the dashboard's. -/
theorem sdActive_eq_active {today : Int} {e : TimelineEvent}
    (h : wfEvent e = true) : sdIsActiveEvent today e = isActiveEvent today e := by
  unfold wfEvent at h
  unfold sdIsActiveEvent isActiveEvent
  cases hs : e.start_date <;> cases he : e.end_date <;>
    simp_all [DateValue.truthy]

/-- The two completed-event predicates have identical bodies. -/
theorem sdCompleted_eq_completed {today : Int} {e : TimelineEvent} :
    sdIsCompletedEvent today e = isCompletedEvent today e := rfl

/-- A completed event has a truthy, parseable end date. -/
theorem sdCompleted_end {today : Int} {e : TimelineEvent}
    (h : sdIsCompletedEvent today e = true) :
    (e.end_date.truthy && hasSomeEnd e) = true := by
  unfold sdIsCompletedEvent jsLt at h
  unfold hasSomeEnd
  cases ht : e.end_date.truthy <;> rw [ht] at h
  · simp at h
  · cases hn : newDate e.end_date <;> rw [hn] at h <;> simp_all

theorem sdLtCmp_false_le {a b : TimelineEvent}
    (ha : (a.end_date.truthy && hasSomeEnd a) = true)
    (hb : (b.end_date.truthy && hasSomeEnd b) = true)
    (h : sdLtCmp b a = false) : endT b ≤ endT a := by
  simp only [Bool.and_eq_true] at ha hb
  unfold hasSomeEnd at ha hb
  unfold sdLtCmp at h
  rw [ha.1, hb.1] at h
  simp only [Bool.not_true, Bool.false_or, Bool.or_self, if_false] at h
  unfold endT
  cases hae : newDate a.end_date with
  | none => rw [hae] at ha; simp at ha
  | some ta =>
      cases hbe : newDate b.end_date with
      | none => rw [hbe] at hb; simp at hb
      | some tb =>
          rw [hbe, hae] at h
          simp only [decide_eq_false_iff_not, not_lt] at h
          simpa [hae, hbe] using h

theorem sdLtCmp_true_le {a b : TimelineEvent}
    (h : sdLtCmp b a = true) : endT a ≤ endT b := by
  unfold sdLtCmp at h
  unfold endT
  by_cases hbt : b.end_date.truthy = true
  · by_cases hat : a.end_date.truthy = true
    · rw [hbt, hat] at h
      simp only [Bool.not_true, Bool.false_or, Bool.or_self, if_false] at h
      cases hae : newDate a.end_date <;> cases hbe : newDate b.end_date <;>
        rw [hbe, hae] at h <;> simp_all
      · omega
    · simp only [Bool.not_eq_true] at hat
      rw [hat] at h; simp at h
  · simp only [Bool.not_eq_true] at hbt
    rw [hbt] at h; simp at h

/-- The head of a list with non-increasing ends bounds every member's
end. -/
theorem head_max_of_descEnds {l : List TimelineEvent} (h : DescEnds l)
    {b : TimelineEvent} {rest : List TimelineEvent} (hl : l = b :: rest) :
    ∀ c ∈ l, endT c ≤ endT b := by
  subst hl
  rw [DescEnds, List.pairwise_cons] at h
  intro c hc
  rcases List.mem_cons.mp hc with hcb | hcr
  · exact hcb ▸ le_refl _
  · exact h.1 c hcr

/-- The `||` fallback chain takes the event's own field when truthy. -/
theorem firstTruthyDate_of_truthy {f s : DateValue} {today : Int}
    (h : f.truthy = true) : firstTruthyDate f s today = newDate f := by
  simp [firstTruthyDate, h]

/-- A well-formed event's fields are truthy. -/
theorem wfEvent_truthy {e : TimelineEvent} (h : wfEvent e = true) :
    e.start_date.truthy = true ∧ e.end_date.truthy = true := by
  unfold wfEvent at h
  cases hs : e.start_date <;> cases he : e.end_date <;>
    simp_all [DateValue.truthy]

/-- C1 counterexample: two overlapping events both containing now, the
earlier-ending one first in the stored array.  The service-details
resolver (`getCurrentActiveServicePeriod`) searches the unsorted array
and returns the earlier end (100), not the later end (200) the claim
requires of every resolver entry point; the dashboard variant, which
sorts first, does return 200. -/
theorem C1_counterexample :
    sdIsActiveEvent 75 ⟨.dateStr 0, .dateStr 100, none⟩ = true ∧
    sdIsActiveEvent 75 ⟨.dateStr 50, .dateStr 200, none⟩ = true ∧
    (getCurrentActiveServicePeriod (some ⟨.dateStr 0, .dateStr 300⟩)
      [⟨.dateStr 0, .dateStr 100, none⟩, ⟨.dateStr 50, .dateStr 200, none⟩]
      75).endDate = some 100 ∧
    (some (100 : Int)) ≠ some 200 ∧
    (getCurrentServiceDatesPure (.dateStr 0) (.dateStr 300)
      [⟨.dateStr 0, .dateStr 100, none⟩, ⟨.dateStr 50, .dateStr 200, none⟩]
      75).currentEnd = some 200 := by
  decide

/-- C1 amended: the active-pick tie-break holds for the
dashboard/services-list resolver — among well-formed events, whenever
some event contains now, the resolved window is that of an active event
whose end date is maximal among all active events; the service-details
variant instead returns the first active event in stored array order,
which can be the earlier-ending one. -/
theorem C1_active_tie_break (timelineData : List TimelineEvent)
    (sS sE : DateValue) (today : Int)
    (hwf : ∀ e ∈ timelineData, wfEvent e = true)
    (a : TimelineEvent) (ha : a ∈ timelineData)
    (hact : isActiveEvent today a = true) :
    ∃ b ∈ timelineData, isActiveEvent today b = true ∧
      (getCurrentServiceDatesPure sS sE timelineData today).currentStart =
        newDate b.start_date ∧
      (getCurrentServiceDatesPure sS sE timelineData today).currentEnd =
        newDate b.end_date ∧
      (getCurrentServiceDatesPure sS sE timelineData today).isExtended = true ∧
      ∀ c ∈ timelineData, isActiveEvent today c = true → endT c ≤ endT b := by
  have hdesc : DescEnds (stableSortBy jsLtCmp timelineData) :=
    stableSortBy_pairwise jsLtCmp hasSomeEnd
      (fun x y hx hy hxy => jsLtCmp_false_le hx hy hxy)
      (fun x y hxy => jsLtCmp_true_le hxy)
      timelineData (fun e he => wfEvent_hasSomeEnd (hwf e he))
  obtain ⟨b, hfind, hpb, hbmem, hmax⟩ :=
    find_max_of_descEnds (isActiveEvent today) (stableSortBy jsLtCmp timelineData)
      hdesc a (mem_stableSortBy.mpr ha) hact
  refine ⟨b, mem_stableSortBy.mp hbmem, hpb, ?_, ?_, ?_, ?_⟩
  · simp [getCurrentServiceDatesPure, resolveFromSorted, hfind]
  · simp [getCurrentServiceDatesPure, resolveFromSorted, hfind]
  · simp [getCurrentServiceDatesPure, resolveFromSorted, hfind]
  · intro c hc hcact
    exact hmax c (mem_stableSortBy.mpr hc) hcact

/-- C1 witness: the amended tie-break at the concrete overlapping pair
of the counterexample. -/
theorem C1_active_tie_break_witness :
    (∀ e ∈ ([⟨.dateStr 0, .dateStr 100, none⟩, ⟨.dateStr 50, .dateStr 200, none⟩] :
        List TimelineEvent), wfEvent e = true) ∧
    (⟨.dateStr 0, .dateStr 100, none⟩ : TimelineEvent) ∈
      ([⟨.dateStr 0, .dateStr 100, none⟩, ⟨.dateStr 50, .dateStr 200, none⟩] :
        List TimelineEvent) ∧
    isActiveEvent 75 ⟨.dateStr 0, .dateStr 100, none⟩ = true ∧
    (∃ b ∈ ([⟨.dateStr 0, .dateStr 100, none⟩, ⟨.dateStr 50, .dateStr 200, none⟩] :
        List TimelineEvent), isActiveEvent 75 b = true ∧
      (getCurrentServiceDatesPure (.dateStr 0) (.dateStr 300)
        [⟨.dateStr 0, .dateStr 100, none⟩, ⟨.dateStr 50, .dateStr 200, none⟩]
        75).currentStart = newDate b.start_date ∧
      (getCurrentServiceDatesPure (.dateStr 0) (.dateStr 300)
        [⟨.dateStr 0, .dateStr 100, none⟩, ⟨.dateStr 50, .dateStr 200, none⟩]
        75).currentEnd = newDate b.end_date ∧
      (getCurrentServiceDatesPure (.dateStr 0) (.dateStr 300)
        [⟨.dateStr 0, .dateStr 100, none⟩, ⟨.dateStr 50, .dateStr 200, none⟩]
        75).isExtended = true ∧
      ∀ c ∈ ([⟨.dateStr 0, .dateStr 100, none⟩, ⟨.dateStr 50, .dateStr 200, none⟩] :
        List TimelineEvent), isActiveEvent 75 c = true → endT c ≤ endT b) :=
  ⟨by decide, by decide, by decide,
    C1_active_tie_break
      [⟨.dateStr 0, .dateStr 100, none⟩, ⟨.dateStr 50, .dateStr 200, none⟩]
      (.dateStr 0) (.dateStr 300) 75 (by decide)
      ⟨.dateStr 0, .dateStr 100, none⟩ (by decide) (by decide)⟩

/-- C3: for a set of well-formed events none of which contains now but
at least one of which ended strictly before now, both resolver variants
return the window of an ended event with maximal end date and set
isExtended = true (the detail variant additionally marks it
completed). -/
theorem C3_completed_fallback (timelineData : List TimelineEvent)
    (sS sE : DateValue) (svc : ServiceRecord) (today : Int)
    (hwf : ∀ e ∈ timelineData, wfEvent e = true)
    (hnoact : ∀ e ∈ timelineData, isActiveEvent today e = false)
    (a : TimelineEvent) (ha : a ∈ timelineData)
    (hcomp : isCompletedEvent today a = true) :
    (∃ b ∈ timelineData, isCompletedEvent today b = true ∧
      (getCurrentServiceDatesPure sS sE timelineData today).currentStart =
        newDate b.start_date ∧
      (getCurrentServiceDatesPure sS sE timelineData today).currentEnd =
        newDate b.end_date ∧
      (getCurrentServiceDatesPure sS sE timelineData today).isExtended = true ∧
      ∀ c ∈ timelineData, isCompletedEvent today c = true → endT c ≤ endT b) ∧
    (∃ b ∈ timelineData, isCompletedEvent today b = true ∧
      (getCurrentActiveServicePeriod (some svc) timelineData today).startDate =
        newDate b.start_date ∧
      (getCurrentActiveServicePeriod (some svc) timelineData today).endDate =
        newDate b.end_date ∧
      (getCurrentActiveServicePeriod (some svc) timelineData today).isExtended = true ∧
      (getCurrentActiveServicePeriod (some svc) timelineData today).isCompleted = true ∧
      ∀ c ∈ timelineData, isCompletedEvent today c = true → endT c ≤ endT b) := by
  constructor
  · -- dashboard / services-list variant
    have hdesc : DescEnds (stableSortBy jsLtCmp timelineData) :=
      stableSortBy_pairwise jsLtCmp hasSomeEnd
        (fun x y hx hy hxy => jsLtCmp_false_le hx hy hxy)
        (fun x y hxy => jsLtCmp_true_le hxy)
        timelineData (fun e he => wfEvent_hasSomeEnd (hwf e he))
    have hfindnone :
        (stableSortBy jsLtCmp timelineData).find? (isActiveEvent today) = none :=
      List.find?_eq_none.mpr fun x hx => by
        rw [hnoact x (mem_stableSortBy.mp hx)]; simp
    have hafil : a ∈ (stableSortBy jsLtCmp timelineData).filter
        (isCompletedEvent today) :=
      List.mem_filter.mpr ⟨mem_stableSortBy.mpr ha, hcomp⟩
    cases hfil : (stableSortBy jsLtCmp timelineData).filter (isCompletedEvent today) with
    | nil => rw [hfil] at hafil; cases hafil
    | cons b rest =>
        obtain ⟨hpb, hbmem, hmax⟩ :=
          filter_head_max_of_descEnds (isCompletedEvent today)
            (stableSortBy jsLtCmp timelineData) hdesc b rest hfil
        refine ⟨b, mem_stableSortBy.mp hbmem, hpb, ?_, ?_, ?_, ?_⟩
        · simp [getCurrentServiceDatesPure, resolveFromSorted, hfindnone, hfil]
        · simp [getCurrentServiceDatesPure, resolveFromSorted, hfindnone, hfil]
        · simp [getCurrentServiceDatesPure, resolveFromSorted, hfindnone, hfil]
        · intro c hc hcc
          exact hmax c (mem_stableSortBy.mpr hc) hcc
  · -- service-details variant
    have hie : timelineData.isEmpty = false := by
      cases timelineData with
      | nil => cases ha
      | cons x xs => rfl
    have hfindnone :
        timelineData.find? (sdIsActiveEvent today) = none :=
      List.find?_eq_none.mpr fun x hx => by
        rw [sdActive_eq_active (hwf x hx), hnoact x hx]; simp
    have hdescF : DescEnds (stableSortBy sdLtCmp
        (timelineData.filter (sdIsCompletedEvent today))) :=
      stableSortBy_pairwise sdLtCmp
        (fun e => e.end_date.truthy && hasSomeEnd e)
        (fun x y hx hy hxy => sdLtCmp_false_le hx hy hxy)
        (fun x y hxy => sdLtCmp_true_le hxy)
        (timelineData.filter (sdIsCompletedEvent today))
        (fun e he => sdCompleted_end (List.of_mem_filter he))
    have hafil : a ∈ timelineData.filter (sdIsCompletedEvent today) :=
      List.mem_filter.mpr ⟨ha, by rw [sdCompleted_eq_completed]; exact hcomp⟩
    cases hs : stableSortBy sdLtCmp (timelineData.filter (sdIsCompletedEvent today)) with
    | nil =>
        have hperm := stableSortBy_perm sdLtCmp
          (timelineData.filter (sdIsCompletedEvent today))
        rw [hs] at hperm
        rw [hperm.symm.eq_nil] at hafil
        cases hafil
    | cons latest rest =>
        have hlmem : latest ∈ timelineData.filter (sdIsCompletedEvent today) := by
          have : latest ∈ stableSortBy sdLtCmp
              (timelineData.filter (sdIsCompletedEvent today)) := by
            rw [hs]; exact List.mem_cons_self latest rest
          exact mem_stableSortBy.mp this
        have hlp : sdIsCompletedEvent today latest = true :=
          List.of_mem_filter hlmem
        have hltl : latest ∈ timelineData := List.mem_of_mem_filter hlmem
        have hwfl := wfEvent_truthy (hwf latest hltl)
        have hmaxF := head_max_of_descEnds hdescF hs
        refine ⟨latest, hltl, by rw [← sdCompleted_eq_completed]; exact hlp,
          ?_, ?_, ?_, ?_, ?_⟩
        · simp [getCurrentActiveServicePeriod, hie, hfindnone, hs,
            firstTruthyDate_of_truthy hwfl.1]
        · simp [getCurrentActiveServicePeriod, hie, hfindnone, hs,
            firstTruthyDate_of_truthy hwfl.2]
        · simp [getCurrentActiveServicePeriod, hie, hfindnone, hs]
        · simp [getCurrentActiveServicePeriod, hie, hfindnone, hs]
        · intro c hc hcc
          have hcfil : c ∈ timelineData.filter (sdIsCompletedEvent today) :=
            List.mem_filter.mpr ⟨hc, by rw [sdCompleted_eq_completed]; exact hcc⟩
          exact hmaxF c (mem_stableSortBy.mpr hcfil)

/-- C3 witness: the completed fallback at a concrete pair of ended
events (ends 40 and 60, now = 100). -/
theorem C3_completed_fallback_witness :
    (∀ e ∈ ([⟨.dateStr 0, .dateStr 40, none⟩, ⟨.dateStr 10, .dateStr 60, none⟩] :
        List TimelineEvent), wfEvent e = true) ∧
    (∀ e ∈ ([⟨.dateStr 0, .dateStr 40, none⟩, ⟨.dateStr 10, .dateStr 60, none⟩] :
        List TimelineEvent), isActiveEvent 100 e = false) ∧
    (⟨.dateStr 0, .dateStr 40, none⟩ : TimelineEvent) ∈
      ([⟨.dateStr 0, .dateStr 40, none⟩, ⟨.dateStr 10, .dateStr 60, none⟩] :
        List TimelineEvent) ∧
    isCompletedEvent 100 ⟨.dateStr 0, .dateStr 40, none⟩ = true ∧
    ((∃ b ∈ ([⟨.dateStr 0, .dateStr 40, none⟩, ⟨.dateStr 10, .dateStr 60, none⟩] :
        List TimelineEvent), isCompletedEvent 100 b = true ∧
      (getCurrentServiceDatesPure (.dateStr 0) (.dateStr 30)
        [⟨.dateStr 0, .dateStr 40, none⟩, ⟨.dateStr 10, .dateStr 60, none⟩]
        100).currentStart = newDate b.start_date ∧
      (getCurrentServiceDatesPure (.dateStr 0) (.dateStr 30)
        [⟨.dateStr 0, .dateStr 40, none⟩, ⟨.dateStr 10, .dateStr 60, none⟩]
        100).currentEnd = newDate b.end_date ∧
      (getCurrentServiceDatesPure (.dateStr 0) (.dateStr 30)
        [⟨.dateStr 0, .dateStr 40, none⟩, ⟨.dateStr 10, .dateStr 60, none⟩]
        100).isExtended = true ∧
      ∀ c ∈ ([⟨.dateStr 0, .dateStr 40, none⟩, ⟨.dateStr 10, .dateStr 60, none⟩] :
        List TimelineEvent), isCompletedEvent 100 c = true → endT c ≤ endT b) ∧
    (∃ b ∈ ([⟨.dateStr 0, .dateStr 40, none⟩, ⟨.dateStr 10, .dateStr 60, none⟩] :
        List TimelineEvent), isCompletedEvent 100 b = true ∧
      (getCurrentActiveServicePeriod (some ⟨.dateStr 0, .dateStr 30⟩)
        [⟨.dateStr 0, .dateStr 40, none⟩, ⟨.dateStr 10, .dateStr 60, none⟩]
        100).startDate = newDate b.start_date ∧
      (getCurrentActiveServicePeriod (some ⟨.dateStr 0, .dateStr 30⟩)
        [⟨.dateStr 0, .dateStr 40, none⟩, ⟨.dateStr 10, .dateStr 60, none⟩]
        100).endDate = newDate b.end_date ∧
      (getCurrentActiveServicePeriod (some ⟨.dateStr 0, .dateStr 30⟩)
        [⟨.dateStr 0, .dateStr 40, none⟩, ⟨.dateStr 10, .dateStr 60, none⟩]
        100).isExtended = true ∧
      (getCurrentActiveServicePeriod (some ⟨.dateStr 0, .dateStr 30⟩)
        [⟨.dateStr 0, .dateStr 40, none⟩, ⟨.dateStr 10, .dateStr 60, none⟩]
        100).isCompleted = true ∧
      ∀ c ∈ ([⟨.dateStr 0, .dateStr 40, none⟩, ⟨.dateStr 10, .dateStr 60, none⟩] :
        List TimelineEvent), isCompletedEvent 100 c = true → endT c ≤ endT b)) :=
  ⟨by decide, by decide, by decide, by decide,
    C3_completed_fallback
      [⟨.dateStr 0, .dateStr 40, none⟩, ⟨.dateStr 10, .dateStr 60, none⟩]
      (.dateStr 0) (.dateStr 30) ⟨.dateStr 0, .dateStr 30⟩ 100
      (by decide) (by decide)
      ⟨.dateStr 0, .dateStr 40, none⟩ (by decide) (by decide)⟩
